import Mathlib

/-
Verification of the rs-whep-play WHEP client (src/main.rs, src/utils.rs)
against its natural-language specification.

Shallow embedding conventions:
- `handle_data` (identical in main.rs:29-45 and utils.rs:38-54) is modelled as a
  function over the list of environment events its loop consumes: each
  `tokio::select!` iteration either obtains a read result from `track.read_rtp()`
  (a successful read carrying the outcome of `rtp_packet.marshal()` and of
  `appsrc.push_buffer`, or a read error) or, when no read completes, the select
  keeps waiting.  Rust `Result` becomes an explicit outcome type; a `?` that
  propagates an error becomes the `err` outcome; `return Ok(())` becomes `ok`.
- The ICE connection-state handler (main.rs:213-222) and the capacity-1
  `tokio::sync::mpsc` completion channel (main.rs:209) become explicit state:
  the channel is the number of values queued (capacity 1; `try_send` on a full
  channel fails and the failure is discarded by `let _ =`).
- Panics (`unwrap`, `unimplemented!`) become `none` / `Except.error`.
-/

/-- Wire-format bytes of a marshalled RTP packet. -/
abbrev Bytes := List Nat

/-- One event consumed by the `handle_data` loop:
`ok marshalled pushAccepted` is a successful `track.read_rtp()` whose packet
marshals to `some bytes` (or fails to marshal, `none`), together with whether
the subsequent `appsrc.push_buffer` would be accepted by the sink;
`err` is a failing `track.read_rtp()`. -/
inductive ReadEvent where
  | ok (marshalled : Option Bytes) (pushAccepted : Bool)
  | err
deriving DecidableEq, Repr

/-- Outcome of the `handle_data` loop on a finite event list:
`ok` models `return Ok(())` (the read failed: normal end of stream),
`err` models an error propagated by `?` (here: `rtp_packet.marshal()?`),
`pending` means the loop consumed every event and is still in its RUNNING
state, waiting for the next read. -/
inductive RelayOutcome where
  | ok
  | err
  | pending
deriving DecidableEq, Repr

/-- Embedding of `handle_data` (main.rs:29-45, utils.rs:38-54).
Returns the list of buffers passed to `appsrc.push_buffer` (in order; the
push's own result is discarded by `let _ =`, so a rejected push still counts
as a push call) together with the loop's outcome.
- a successful read whose packet marshals: push the buffer, continue;
- a successful read whose `marshal()` fails: the `?` operator returns the
  error from `handle_data` (outcome `err`), no push happens;
- a failing read: log and `return Ok(())` (outcome `ok`). -/
def handle_data : List ReadEvent → List Bytes × RelayOutcome
  | [] => ([], RelayOutcome.pending)
  | ReadEvent.err :: _ => ([], RelayOutcome.ok)
  | ReadEvent.ok none _ :: _ => ([], RelayOutcome.err)
  | ReadEvent.ok (some buf) _ :: rest =>
      let r := handle_data rest
      (buf :: r.1, r.2)

/-- Buffers pushed by `handle_data` on the given events. -/
def pushedBuffers (evts : List ReadEvent) : List Bytes := (handle_data evts).1

/-- Outcome of `handle_data` on the given events. -/
def relayOutcome (evts : List ReadEvent) : RelayOutcome := (handle_data evts).2

/-- State of one relay task: the spec's two-state machine. -/
inductive RelayState where
  | running
  | terminatedOk
  | terminatedErr
deriving DecidableEq, Repr

/-- One scheduling step of the `handle_data` loop (main.rs:30-44).
The `tokio::select!` block has exactly one arm, `track.read_rtp()`: when no
read result is available (`read = none`) the task keeps waiting in RUNNING,
whatever the value of `cancelSignaled` — the loop has no cancellation arm, so
an external cancellation request is never observed. -/
def relayStep (_cancelSignaled : Bool) (read : Option ReadEvent) (st : RelayState) :
    RelayState :=
  match st with
  | RelayState.running =>
      match read with
      | none => RelayState.running
      | some ReadEvent.err => RelayState.terminatedOk
      | some (ReadEvent.ok none _) => RelayState.terminatedErr
      | some (ReadEvent.ok (some _) _) => RelayState.running
  | s => s

/-- State observable from the lifecycle controller:
`doneQueued` is the number of values in the capacity-1 completion channel
(main.rs:209); `terminationBroadcast` records whether a termination signal has
ever been broadcast to the relay tasks. -/
structure LifecycleState where
  doneQueued : Nat
  terminationBroadcast : Bool
deriving DecidableEq, Repr

/-- `done_tx.try_send(())` on the capacity-1 channel: enqueues when the channel
is empty, otherwise fails; the failure is discarded (`let _ =`). -/
def trySendDone (ch : Nat) : Nat := if ch < 1 then ch + 1 else ch

/-- Connection states reported by the transport (webrtc's RTCIceConnectionState). -/
inductive RTCIceConnectionState where
  | unspecified
  | new
  | checking
  | connected
  | completed
  | disconnected
  | failed
  | closed
deriving DecidableEq, Repr

/-- Embedding of the `on_ice_connection_state_change` handler (main.rs:213-222):
on `Failed` it performs `let _ = done_tx.try_send(())` and nothing else; on any
other state it only logs. -/
def on_ice_connection_state_change (st : RTCIceConnectionState)
    (s : LifecycleState) : LifecycleState :=
  if st = RTCIceConnectionState.failed then
    { s with doneQueued := trySendDone s.doneQueued }
  else s

/-- Top-level shutdown flow of `main` (main.rs:209-253): the connection-state
events fold through the handler; `main` then blocks in a `tokio::select!` on
`done_rx.recv()` and `ctrl_c()`, and once either trigger fires it calls
`peer_connection.close()` exactly once and returns.  The result is the final
channel occupancy and the number of `close()` calls performed. -/
def runShutdown (states : List RTCIceConnectionState) (interrupt : Bool) :
    Nat × Nat :=
  let ch := states.foldl (fun c st => (on_ice_connection_state_change st ⟨c, false⟩).doneQueued) 0
  let closes := if 0 < ch ∨ interrupt then 1 else 0
  (ch, closes)

/-- An HTTP response as seen by `whep`: reqwest exposes a status code and the
result of reading the body text (`response.text()`); the code never reads the
status field. -/
structure HttpResponse where
  status : Nat
  bodyText : Except String String

/-- Embedding of `whep` (main.rs:47-54, utils.rs:20-27): POST the given body to
the signaling URL (`send()` may fail, modelled by `sendResult = .error`), then
return the response body text verbatim (`response.text().await?`).  The HTTP
status code of the response is never inspected. -/
def whep (sendResult : Except String HttpResponse) : Except String String :=
  match sendResult with
  | Except.error e => Except.error e
  | Except.ok resp =>
      match resp.bodyText with
      | Except.error e => Except.error e
      | Except.ok answer_str => Except.ok answer_str

/-- A session description as built by main.rs:237-238. -/
structure RTCSessionDescription where
  sdpType : String
  sdp : String
deriving DecidableEq, Repr

/-- Embedding of main.rs:237-238: build the JSON object with type "answer" and
sdp equal to the whep answer text, and deserialize it into an
RTCSessionDescription; the JSON round trip preserves the string, so the
resulting description carries the answer text unchanged as its SDP. -/
def remoteAnswer (answer_str : String) : RTCSessionDescription :=
  { sdpType := "answer", sdp := answer_str }

/-- Lowercase hexadecimal digit, as serde_json prints in \u escapes. -/
def hexDigit (n : Nat) : Char :=
  if n < 10 then Char.ofNat (48 + n) else Char.ofNat (87 + n)

/-- serde_json's escaping of one character inside a JSON string literal:
quote and backslash are backslash-escaped, the named control characters use
their short escapes, all other control characters below 0x20 use a \u00XX
escape, and every other character is emitted unchanged. -/
def escapeChar (c : Char) : List Char :=
  if c = '"' then ['\\', '"']
  else if c = '\\' then ['\\', '\\']
  else if c = Char.ofNat 8 then ['\\', 'b']
  else if c = '\t' then ['\\', 't']
  else if c = '\n' then ['\\', 'n']
  else if c = Char.ofNat 12 then ['\\', 'f']
  else if c = '\r' then ['\\', 'r']
  else if c.toNat < 32 then
    ['\\', 'u', '0', '0', hexDigit (c.toNat / 16), hexDigit (c.toNat % 16)]
  else [c]

/-- serde_json::to_string applied to a String value: a JSON string literal —
opening quote, escaped characters, closing quote. -/
def jsonEncodeString (s : String) : String :=
  String.mk ('"' :: s.data.flatMap escapeChar ++ ['"'])

/-- Embedding of main.rs:226 together with main.rs:236 and whep's
`client.post(url).body(offer_str)` (main.rs:50): the body of the signaling
HTTP POST is `serde_json::to_string(&offer.sdp)`, which whep passes to the
request unchanged. -/
def signalingPostBody (offer_sdp : String) : String := jsonEncodeString offer_sdp

/-- Rust's u8::from_str digit loop: accumulate decimal digits with checked
arithmetic — a non-digit character, or an accumulated value above 255, is a
parse error (`none`). -/
def parseU8Loop : List Char → Nat → Option Nat
  | [], acc => some acc
  | c :: rest, acc =>
      if c.isDigit then
        if acc * 10 + (c.toNat - 48) ≤ 255 then
          parseU8Loop rest (acc * 10 + (c.toNat - 48))
        else none
      else none

/-- `parse::<u8>` over the characters of the argument: an optional leading '+'
followed by at least one decimal digit, value at most 255; anything else
(empty string, sign alone, '-', other characters, overflow) is `none`. -/
def parseU8Chars : List Char → Option Nat
  | [] => none
  | c :: rest =>
      if c = '+' then (if rest = [] then none else parseU8Loop rest 0)
      else parseU8Loop (c :: rest) 0

/-- Embedding of `args[2].parse::<u8>()` (main.rs:126). -/
def parseU8 (s : String) : Option Nat := parseU8Chars s.data

/-- Embedding of the payload-type argument handling (main.rs:120-127): with
more than two arguments, payload_type is `args[2].parse::<u8>().unwrap()` —
`none` models the unwrap panic; otherwise the default 102 is kept. -/
def mainPayloadType (args : List String) : Option Nat :=
  match args with
  | _ :: _ :: a2 :: _ => parseU8 a2
  | _ => some 102

/-- Decimal value of a digit list. -/
def decimalValue (ds : List Char) : Nat :=
  ds.foldl (fun a c => a * 10 + (c.toNat - 48)) 0

/-- ds is a nonempty run of decimal digits whose value is at most 255. -/
def isU8NumeralCore (ds : List Char) : Bool :=
  !ds.isEmpty && ds.all Char.isDigit && decide (decimalValue ds ≤ 255)

/-- s denotes an 8-bit unsigned numeral: an optional leading '+', then a
nonempty run of decimal digits whose value is at most 255. -/
def isU8Numeral (s : String) : Bool :=
  isU8NumeralCore (if s.data.head? = some '+' then s.data.tail else s.data)

/-- u8 addition as performed in a release build: wrapping modulo 256. -/
def u8_wrapping_add (a b : Nat) : Nat := (a + b) % 256

/-- A codec parameter entry as passed to set_codec_preferences. -/
structure RTCRtpCodecParameters where
  payload_type : Nat
  mime_type : String
  clock_rate : Nat
deriving DecidableEq, Repr

/-- webrtc's MIME_TYPE_H264 constant. -/
def MIME_TYPE_H264 : String := "video/H264"

/-- webrtc's MIME_TYPE_VP8 constant. -/
def MIME_TYPE_VP8 : String := "video/VP8"

/-- Embedding of the set_codec_preferences argument (main.rs:157-181): exactly
two parameter entries — H264 at the caller's payload_type and VP8 at
payload_type + 1 (u8 addition; in a release build it wraps modulo 256), both
with clock rate 90000. -/
def codecPreferences (payload_type : Nat) : List RTCRtpCodecParameters :=
  [ { payload_type := payload_type, mime_type := MIME_TYPE_H264, clock_rate := 90000 },
    { payload_type := u8_wrapping_add payload_type 1, mime_type := MIME_TYPE_VP8,
      clock_rate := 90000 } ]

/-- Embedding of create_pipeline's codec selection (utils.rs:56-104): the exact
MIME string selects the (depacketizer, decoder, caps codec name) triple; any
other MIME type reaches `unimplemented!("mimetype:... not managed")` — a
panic, modelled as `Except.error` carrying the panic message. -/
def create_pipeline (mimetype : String) : Except String (String × String × String) :=
  if mimetype = "video/H265" then Except.ok ("rtph265depay", "avdec_h265", "H265")
  else if mimetype = "video/H264" then Except.ok ("rtph264depay", "avdec_h264", "H264")
  else if mimetype = "video/VP8" then Except.ok ("rtpvp8depay", "avdec_vp8", "VP8")
  else if mimetype = "video/VP9" then Except.ok ("rtpvp9depay", "avdec_vp9", "VP9")
  else Except.error ("mimetype:" ++ mimetype ++ " not managed")

/-- ASCII lowercase of one character (uppercase letters map down by 32). -/
def asciiToLowerChar (c : Char) : Char :=
  if 65 ≤ c.toNat ∧ c.toNat ≤ 90 then Char.ofNat (c.toNat + 32) else c

/-- Rust's str::to_lowercase as used on the MIME strings involved here (all
ASCII): lowercase every character. -/
def to_lowercase (s : String) : String := String.mk (s.data.map asciiToLowerChar)

/-- What main.rs's on_track handler does with an arriving track. -/
inductive TrackAction where
  | spawnH264
  | spawnVP8
  | ignore
deriving DecidableEq, Repr

/-- Embedding of the on_track handler's dispatch (main.rs:184-207): compare the
track's lowercased MIME type against MIME_TYPE_H264 / MIME_TYPE_VP8
lowercased; on a match build the corresponding consumer and spawn handle_data;
any other MIME type falls through the if/else-if chain and the handler
returns having done nothing at all. -/
def on_track_dispatch (mime_type : String) : TrackAction :=
  if to_lowercase mime_type = to_lowercase MIME_TYPE_H264 then TrackAction.spawnH264
  else if to_lowercase mime_type = to_lowercase MIME_TYPE_VP8 then TrackAction.spawnVP8
  else TrackAction.ignore

-- Sanity examples (concrete evaluations of the embedded code).
example : handle_data [ReadEvent.ok (some [1, 2]) true, ReadEvent.err]
    = ([[1, 2]], RelayOutcome.ok) := by decide
example : handle_data [ReadEvent.ok none true, ReadEvent.ok (some [7]) true]
    = ([], RelayOutcome.err) := by decide
example : runShutdown [RTCIceConnectionState.failed, RTCIceConnectionState.failed] false
    = (1, 1) := by decide

/-- Claim C2: for every execution of the relay loop in which N ≥ 0 packets are
read (and marshalled) successfully and then a read fails, the loop pushes
exactly the N buffers to the sink, one per successful read and in read order
(whether or not the sink accepted each push), and returns `Ok(())`, treating
the read failure as a normal end-of-stream condition. -/
theorem relay_n_pushes_then_graceful_end
    (pkts : List (Bytes × Bool)) (rest : List ReadEvent) :
    pushedBuffers
        (pkts.map (fun p => ReadEvent.ok (some p.1) p.2) ++ ReadEvent.err :: rest)
      = pkts.map Prod.fst ∧
    relayOutcome
        (pkts.map (fun p => ReadEvent.ok (some p.1) p.2) ++ ReadEvent.err :: rest)
      = RelayOutcome.ok := by
  induction pkts with
  | nil => exact ⟨rfl, rfl⟩
  | cons p ps ih =>
      refine ⟨?_, ?_⟩
      · simpa [pushedBuffers, handle_data] using ih.1
      · simpa [relayOutcome, handle_data] using ih.2

/-- Claim C3 counterexample: a packet whose serialization (`marshal`) fails is
NOT swallowed — `rtp_packet.marshal()?` propagates the error, the loop
terminates with `Err` and the following packet is never pushed, contradicting
"the error is swallowed and the loop continues to the next iteration". -/
theorem marshal_failure_is_fatal_counterexample :
    handle_data [ReadEvent.ok none true, ReadEvent.ok (some [7]) true]
      = ([], RelayOutcome.err) := by decide

/-- Claim C3 (amended): a rejection by the sink's push is swallowed (`let _ =
appsrc.push_buffer(...)`) and the loop continues to the next iteration exactly
as for an accepted push; but a failure to serialize the packet (`marshal()?`)
is fatal: the loop stops with an error and pushes nothing further. -/
theorem push_rejection_swallowed_marshal_fatal
    (buf : Bytes) (accepted : Bool) (rest : List ReadEvent) :
    handle_data (ReadEvent.ok (some buf) accepted :: rest)
      = (buf :: pushedBuffers rest, relayOutcome rest) ∧
    handle_data (ReadEvent.ok none accepted :: rest)
      = ([], RelayOutcome.err) := by
  exact ⟨rfl, rfl⟩

/-- Claim C1 counterexample: on observing `Failed`, the handler does NOT
broadcast any termination signal to the relay tasks (it only performs
`try_send` on the completion channel), and a relay task that receives a
cancellation request but no packet remains RUNNING after a scheduling step —
the `select!` has no cancellation arm, so the task does not reach TERMINATED
without a further read result from its track. -/
theorem failed_does_not_broadcast_counterexample :
    on_ice_connection_state_change RTCIceConnectionState.failed ⟨0, false⟩
        = ⟨1, false⟩ ∧
    relayStep true none RelayState.running = RelayState.running := by decide

/-- Claim C1 (amended): on observing `Failed`, the handler's only effect is a
best-effort `try_send` on the completion channel — the `terminationBroadcast`
flag is never set — and a RUNNING relay task stays RUNNING on any scheduling
step in which no read result arrives, regardless of cancellation; it reaches a
terminated state only when its own read fails (or its packet fails to
marshal). -/
theorem failed_only_enqueues_completion (s : LifecycleState) (c : Bool) :
    (on_ice_connection_state_change RTCIceConnectionState.failed s).terminationBroadcast
        = s.terminationBroadcast ∧
    (on_ice_connection_state_change RTCIceConnectionState.failed s).doneQueued
        = trySendDone s.doneQueued ∧
    relayStep c none RelayState.running = RelayState.running ∧
    relayStep c (some ReadEvent.err) RelayState.running = RelayState.terminatedOk := by
  refine ⟨?_, ?_, rfl, rfl⟩
  · simp [on_ice_connection_state_change]
  · simp [on_ice_connection_state_change]

/-- Claim C8: the shutdown path runs at most once per session: however many
`Failed` events arrive, the capacity-1 completion channel never holds more
than one value (`try_send` on a full channel is discarded, not an error), and
`main` calls `close()` at most once — also when a `Failed` event and an
operator interrupt coincide. -/
theorem shutdown_at_most_once (states : List RTCIceConnectionState)
    (interrupt : Bool) :
    (runShutdown states interrupt).1 ≤ 1 ∧
    (runShutdown states interrupt).2 ≤ 1 ∧
    trySendDone 1 = 1 := by
  refine ⟨?_, ?_, rfl⟩
  · show (states.foldl (fun c st => (on_ice_connection_state_change st ⟨c, false⟩).doneQueued) 0) ≤ 1
    have h : ∀ (l : List RTCIceConnectionState) (c : Nat), c ≤ 1 →
        (l.foldl (fun c st => (on_ice_connection_state_change st ⟨c, false⟩).doneQueued) c) ≤ 1 := by
      intro l
      induction l with
      | nil => intro c hc; simpa using hc
      | cons st rest ih =>
          intro c hc
          apply ih
          by_cases hst : st = RTCIceConnectionState.failed
          · subst hst
            show trySendDone c ≤ 1
            unfold trySendDone
            split <;> omega
          · have h2 : on_ice_connection_state_change st ⟨c, false⟩ = ⟨c, false⟩ := by
              simp [on_ice_connection_state_change, hst]
            show (on_ice_connection_state_change st ⟨c, false⟩).doneQueued ≤ 1
            rw [h2]
            exact hc
    exact h states 0 (by omega)
  · show (if 0 < (states.foldl (fun c st => (on_ice_connection_state_change st ⟨c, false⟩).doneQueued) 0) ∨ interrupt then 1 else 0) ≤ 1
    split <;> omega

/-- Every character escapes to at least one output character. -/
theorem one_le_escapeChar_length (c : Char) : 1 ≤ (escapeChar c).length := by
  unfold escapeChar
  split_ifs <;> simp

/-- Escaping a character list never shortens it. -/
theorem length_le_bind_escapeChar (l : List Char) :
    l.length ≤ (l.flatMap escapeChar).length := by
  induction l with
  | nil => simp
  | cons c t ih =>
      simp only [List.flatMap_cons, List.length_append, List.length_cons]
      have h := one_le_escapeChar_length c
      omega

/-- Claim C4: the signaling exchange never inspects the HTTP status code: for
every response whose body reads successfully, whep returns the body verbatim
as the remote answer's SDP text, the result is identical for any two status
codes (2xx or not) with the same body, and the remote description is then
constructed with exactly that body as its SDP. -/
theorem whep_ignores_http_status (status status2 : Nat) (body : String) :
    whep (Except.ok ⟨status, Except.ok body⟩) = Except.ok body ∧
    whep (Except.ok ⟨status, Except.ok body⟩)
      = whep (Except.ok ⟨status2, Except.ok body⟩) ∧
    remoteAnswer body = ⟨"answer", body⟩ ∧ (remoteAnswer body).sdp = body :=
  ⟨rfl, rfl, rfl, rfl⟩

/-- Claim C5 counterexample: the POST body for the offer SDP "v=0" is the JSON
string literal (quoted), not the raw SDP text — the program applies JSON
string framing (serde_json::to_string on offer.sdp, main.rs:226) before
sending. -/
theorem post_body_not_raw_sdp_counterexample :
    signalingPostBody "v=0" = "\"v=0\"" ∧ signalingPostBody "v=0" ≠ "v=0" := by
  constructor
  · rfl
  · decide

/-- Claim C5 (amended): the body of the single signaling HTTP POST is the JSON
string-literal serialization of the local offer's SDP — the SDP wrapped in
double quotes with JSON escapes — which whep forwards unchanged; it is never
the raw SDP text itself. -/
theorem post_body_is_json_encoded_offer (offer_sdp : String) :
    signalingPostBody offer_sdp
      = String.mk ('"' :: offer_sdp.data.flatMap escapeChar ++ ['"']) ∧
    signalingPostBody offer_sdp ≠ offer_sdp := by
  refine ⟨rfl, ?_⟩
  intro h
  have hd : '"' :: offer_sdp.data.flatMap escapeChar ++ ['"'] = offer_sdp.data :=
    congrArg String.data h
  have hlen := congrArg List.length hd
  simp only [List.length_append, List.length_cons] at hlen
  have hle := length_le_bind_escapeChar offer_sdp.data
  omega

/-- The digit loop only succeeds on all-digit input, and its result is the
decimal fold of the digits from the accumulator, bounded by 255. -/
theorem parseU8Loop_sound (ds : List Char) (acc n : Nat) (hacc : acc ≤ 255)
    (h : parseU8Loop ds acc = some n) :
    ds.all Char.isDigit = true ∧
      n = ds.foldl (fun a c => a * 10 + (c.toNat - 48)) acc ∧ n ≤ 255 := by
  induction ds generalizing acc with
  | nil =>
      simp only [parseU8Loop, Option.some.injEq] at h
      subst h
      simpa using hacc
  | cons c t ih =>
      simp only [parseU8Loop] at h
      split_ifs at h with h1 h2
      · have h3 := ih (acc * 10 + (c.toNat - 48)) h2 h
        refine ⟨?_, ?_, h3.2.2⟩
        · simp [List.all_cons, h1, h3.1]
        · simpa using h3.2.1

/-- A string accepted by parse::<u8> is a u8 numeral. -/
theorem parseU8_sound (s : String) (n : Nat) (h : parseU8 s = some n) :
    isU8Numeral s = true := by
  unfold parseU8 at h
  unfold isU8Numeral
  cases hs : s.data with
  | nil => rw [hs] at h; exact absurd h (by simp [parseU8Chars])
  | cons c rest =>
      rw [hs] at h
      simp only [parseU8Chars] at h
      by_cases hc : c = '+'
      · subst hc
        rw [if_pos rfl] at h
        by_cases hr : rest = []
        · rw [if_pos hr] at h; exact absurd h (by simp)
        · rw [if_neg hr] at h
          have hsound := parseU8Loop_sound rest 0 n (by omega) h
          simp only [List.head?_cons, List.tail_cons, if_pos rfl]
          simp [isU8NumeralCore, List.isEmpty_iff, hr, hsound.1, decimalValue,
            ← hsound.2.1, hsound.2.2]
      · rw [if_neg hc] at h
        have hsound := parseU8Loop_sound (c :: rest) 0 n (by omega) h
        simp only [List.head?_cons]
        rw [if_neg (by simpa using hc)]
        simp [isU8NumeralCore, List.isEmpty_iff, hsound.1, decimalValue,
          ← hsound.2.1, hsound.2.2]

/-- Claim C9: when a second positional argument (the third argv entry) is
supplied, it is parsed as u8 and unwrapped: for every argument string that is
not a decimal numeral with value in 0..=255 (non-numeric, or out of range),
the program panics at startup — modelled as `none` — rather than reporting an
error or falling back to the default payload type 102; the default 102 is
used only when the argument is absent. -/
theorem bad_payload_arg_panics (prog url arg : String)
    (h : isU8Numeral arg = false) :
    mainPayloadType [prog, url, arg] = none ∧
      mainPayloadType [prog, url] = some 102 := by
  refine ⟨?_, rfl⟩
  show parseU8 arg = none
  cases hp : parseU8 arg with
  | none => rfl
  | some n =>
      have := parseU8_sound arg n hp
      rw [this] at h
      exact absurd h (by simp)

/-- Witness for bad_payload_arg_panics at the out-of-range argument "256". -/
theorem bad_payload_arg_panics_witness :
    isU8Numeral "256" = false ∧
      (mainPayloadType ["rs-whep-play", "http://localhost:8000/api/whep", "256"] = none ∧
       mainPayloadType ["rs-whep-play", "http://localhost:8000/api/whep"] = some 102) :=
  ⟨by decide, bad_payload_arg_panics "rs-whep-play" "http://localhost:8000/api/whep" "256" (by decide)⟩

/-- Claim C10: the codec preference list always contains exactly two entries —
H264 with the caller-supplied payload type and VP8 with payload_type + 1, both
at clock rate 90000 — where the VP8 payload type is computed by u8 addition:
below 255 the addition is exact, and it overflows exactly at
payload_type = 255, where the wrapping (release-build) result is 0. -/
theorem codec_preferences_two_entries (pt : Nat) (hpt : pt ≤ 255) :
    (codecPreferences pt).length = 2 ∧
    codecPreferences pt
      = [⟨pt, MIME_TYPE_H264, 90000⟩, ⟨u8_wrapping_add pt 1, MIME_TYPE_VP8, 90000⟩] ∧
    (pt < 255 → u8_wrapping_add pt 1 = pt + 1) ∧
    (pt = 255 → u8_wrapping_add pt 1 = 0) ∧
    (256 ≤ pt + 1 ↔ pt = 255) := by
  refine ⟨rfl, rfl, ?_, ?_, ?_⟩
  · intro h; unfold u8_wrapping_add; omega
  · intro h; subst h; rfl
  · omega

/-- Witness for codec_preferences_two_entries at payload_type = 255. -/
theorem codec_preferences_two_entries_witness :
    (255 : Nat) ≤ 255 ∧
      ((codecPreferences 255).length = 2 ∧
       codecPreferences 255
         = [⟨255, MIME_TYPE_H264, 90000⟩, ⟨u8_wrapping_add 255 1, MIME_TYPE_VP8, 90000⟩] ∧
       ((255 : Nat) < 255 → u8_wrapping_add 255 1 = 255 + 1) ∧
       ((255 : Nat) = 255 → u8_wrapping_add 255 1 = 0) ∧
       (256 ≤ 255 + 1 ↔ (255 : Nat) = 255)) :=
  ⟨by decide, codec_preferences_two_entries 255 (by decide)⟩

/-- Claim C7 counterexample: for the MIME type "video/AV1" — outside the
recognized set — main.rs's on_track handler silently does nothing: no consumer
is constructed and no failure is raised, so the track is silently dropped,
contradicting the claim that consumer construction for such a track fails
loudly.  (utils' create_pipeline does panic on it, but main's dispatch never
reaches any factory.) -/
theorem unrecognized_mime_silently_dropped_counterexample :
    on_track_dispatch "video/AV1" = TrackAction.ignore ∧
    create_pipeline "video/AV1"
      = Except.error ("mimetype:" ++ "video/AV1" ++ " not managed") := by
  constructor
  · rfl
  · rfl

/-- Claim C7 (amended): utils' create_pipeline does fail loudly — for every
MIME type outside the recognized set it hits the unimplemented! panic — but
main.rs's on_track handler does not: for every MIME type whose lowercasing is
neither video/h264 nor video/vp8, the handler takes no action at all (no
consumer constructed, no failure raised), silently dropping the track. -/
theorem create_pipeline_loud_main_dispatch_silent (mime : String)
    (h1 : mime ∉ (["video/H265", "video/H264", "video/VP8", "video/VP9"] : List String))
    (h2 : to_lowercase mime ∉ (["video/h264", "video/vp8"] : List String)) :
    create_pipeline mime = Except.error ("mimetype:" ++ mime ++ " not managed") ∧
    on_track_dispatch mime = TrackAction.ignore := by
  simp only [List.mem_cons, List.not_mem_nil, or_false, not_or] at h1 h2
  constructor
  · simp [create_pipeline, h1.1, h1.2.1, h1.2.2.1, h1.2.2.2]
  · have hh : to_lowercase MIME_TYPE_H264 = "video/h264" := by decide
    have hv : to_lowercase MIME_TYPE_VP8 = "video/vp8" := by decide
    simp [on_track_dispatch, hh, hv, h2.1, h2.2]

/-- Witness for create_pipeline_loud_main_dispatch_silent at "video/AV1". -/
theorem create_pipeline_loud_main_dispatch_silent_witness :
    ("video/AV1" ∉ (["video/H265", "video/H264", "video/VP8", "video/VP9"] : List String)) ∧
    (to_lowercase "video/AV1" ∉ (["video/h264", "video/vp8"] : List String)) ∧
    (create_pipeline "video/AV1" = Except.error ("mimetype:" ++ "video/AV1" ++ " not managed") ∧
     on_track_dispatch "video/AV1" = TrackAction.ignore) :=
  ⟨by decide, by decide,
   create_pipeline_loud_main_dispatch_silent "video/AV1" (by decide) (by decide)⟩

/-- Events in the negotiation/relay trace of `main`. -/
inductive NegEvent where
  | createOffer
  | setLocalDescription
  | gatheringComplete
  | whepExchange
  | setRemoteDescription
  | trackArrived
  | spawnRelay
deriving DecidableEq, Repr

/-- Progress of `main` through its awaited handshake steps (main.rs:224-241). -/
inductive NegPhase where
  | init
  | offerCreated
  | localSet
  | gathered
  | signaled
  | remoteSet
deriving DecidableEq, Repr

/-- A state of the session: how far the straight-line handshake has advanced,
and the trace of events emitted so far. -/
structure MainState where
  phase : NegPhase
  trace : List NegEvent
deriving DecidableEq, Repr

/-- One transition of the session.  The five negotiator steps are consecutive
`await`s in `main` (main.rs:224-241), so each may fire only once the previous
one has completed; after the remote description is set the transport may
deliver a track at any time, upon which the on_track handler (main.rs:184-207)
runs: it spawns a relay task when the dispatch recognizes the MIME type and
does nothing otherwise.  The transport collaborator delivers tracks only once
the remote description has been applied (media cannot flow before the answer
is installed), so `track` is enabled only in the `remoteSet` phase. -/
inductive MainStep : MainState → MainState → Prop where
  | offer (t : List NegEvent) :
      MainStep ⟨NegPhase.init, t⟩
        ⟨NegPhase.offerCreated, t ++ [NegEvent.createOffer]⟩
  | setLocal (t : List NegEvent) :
      MainStep ⟨NegPhase.offerCreated, t⟩
        ⟨NegPhase.localSet, t ++ [NegEvent.setLocalDescription]⟩
  | gather (t : List NegEvent) :
      MainStep ⟨NegPhase.localSet, t⟩
        ⟨NegPhase.gathered, t ++ [NegEvent.gatheringComplete]⟩
  | signal (t : List NegEvent) :
      MainStep ⟨NegPhase.gathered, t⟩
        ⟨NegPhase.signaled, t ++ [NegEvent.whepExchange]⟩
  | setRemote (t : List NegEvent) :
      MainStep ⟨NegPhase.signaled, t⟩
        ⟨NegPhase.remoteSet, t ++ [NegEvent.setRemoteDescription]⟩
  | track (t : List NegEvent) (mime : String) :
      MainStep ⟨NegPhase.remoteSet, t⟩
        ⟨NegPhase.remoteSet,
         t ++ (if on_track_dispatch mime = TrackAction.ignore
               then [NegEvent.trackArrived]
               else [NegEvent.trackArrived, NegEvent.spawnRelay])⟩

/-- States reachable by the session from startup. -/
inductive ReachableMain : MainState → Prop where
  | init : ReachableMain ⟨NegPhase.init, []⟩
  | step (s t : MainState) : ReachableMain s → MainStep s t → ReachableMain t

/-- Whether an event belongs to the negotiator's handshake. -/
def isNegotiatorEvent : NegEvent → Bool
  | NegEvent.trackArrived => false
  | NegEvent.spawnRelay => false
  | _ => true

/-- The canonical run of negotiator events completed by each phase. -/
def negotiatorCanon : NegPhase → List NegEvent
  | NegPhase.init => []
  | NegPhase.offerCreated => [NegEvent.createOffer]
  | NegPhase.localSet => [NegEvent.createOffer, NegEvent.setLocalDescription]
  | NegPhase.gathered =>
      [NegEvent.createOffer, NegEvent.setLocalDescription, NegEvent.gatheringComplete]
  | NegPhase.signaled =>
      [NegEvent.createOffer, NegEvent.setLocalDescription, NegEvent.gatheringComplete,
       NegEvent.whepExchange]
  | NegPhase.remoteSet =>
      [NegEvent.createOffer, NegEvent.setLocalDescription, NegEvent.gatheringComplete,
       NegEvent.whepExchange, NegEvent.setRemoteDescription]

/-- Scans a trace from the start: true when a relay task is spawned before the
remote description is set. -/
def spawnBeforeRemote : List NegEvent → Bool
  | [] => false
  | NegEvent.setRemoteDescription :: _ => false
  | NegEvent.spawnRelay :: _ => true
  | _ :: rest => spawnBeforeRemote rest

/-- Invariant of reachable session states: before the remote description is
set, the trace is exactly the canonical run for the current phase; afterwards
it is the full canonical run followed only by track-arrival/relay-spawn
events. -/
def MainInv (s : MainState) : Prop :=
  (s.phase ≠ NegPhase.remoteSet ∧ s.trace = negotiatorCanon s.phase) ∨
  (s.phase = NegPhase.remoteSet ∧
    ∃ suffix, s.trace = negotiatorCanon NegPhase.remoteSet ++ suffix ∧
      ∀ e ∈ suffix, e = NegEvent.trackArrived ∨ e = NegEvent.spawnRelay)

/-- Every reachable state satisfies the invariant. -/
theorem mainInv_of_reachable (s : MainState) (h : ReachableMain s) : MainInv s := by
  induction h with
  | init => exact Or.inl ⟨by decide, rfl⟩
  | step s t hs hstep ih =>
      cases hstep with
      | offer tr =>
          rcases ih with ⟨_, htr⟩ | ⟨hph, _⟩
          · refine Or.inl ⟨show NegPhase.offerCreated ≠ NegPhase.remoteSet by decide, ?_⟩
            have he : tr = negotiatorCanon NegPhase.init := htr
            simp [he, negotiatorCanon]
          · exact absurd hph (show NegPhase.init ≠ NegPhase.remoteSet by decide)
      | setLocal tr =>
          rcases ih with ⟨_, htr⟩ | ⟨hph, _⟩
          · refine Or.inl ⟨show NegPhase.localSet ≠ NegPhase.remoteSet by decide, ?_⟩
            have he : tr = negotiatorCanon NegPhase.offerCreated := htr
            simp [he, negotiatorCanon]
          · exact absurd hph (show NegPhase.offerCreated ≠ NegPhase.remoteSet by decide)
      | gather tr =>
          rcases ih with ⟨_, htr⟩ | ⟨hph, _⟩
          · refine Or.inl ⟨show NegPhase.gathered ≠ NegPhase.remoteSet by decide, ?_⟩
            have he : tr = negotiatorCanon NegPhase.localSet := htr
            simp [he, negotiatorCanon]
          · exact absurd hph (show NegPhase.localSet ≠ NegPhase.remoteSet by decide)
      | signal tr =>
          rcases ih with ⟨_, htr⟩ | ⟨hph, _⟩
          · refine Or.inl ⟨show NegPhase.signaled ≠ NegPhase.remoteSet by decide, ?_⟩
            have he : tr = negotiatorCanon NegPhase.gathered := htr
            simp [he, negotiatorCanon]
          · exact absurd hph (show NegPhase.gathered ≠ NegPhase.remoteSet by decide)
      | setRemote tr =>
          rcases ih with ⟨_, htr⟩ | ⟨hph, _⟩
          · refine Or.inr ⟨rfl, [], ?_, by simp⟩
            have he : tr = negotiatorCanon NegPhase.signaled := htr
            simp [he, negotiatorCanon]
          · exact absurd hph (show NegPhase.signaled ≠ NegPhase.remoteSet by decide)
      | track tr mime =>
          rcases ih with ⟨hph, _⟩ | ⟨_, suffix, hsuf, helems⟩
          · exact absurd rfl hph
          · refine Or.inr ⟨rfl,
              suffix ++ (if on_track_dispatch mime = TrackAction.ignore
                         then [NegEvent.trackArrived]
                         else [NegEvent.trackArrived, NegEvent.spawnRelay]), ?_, ?_⟩
            · have he : tr = negotiatorCanon NegPhase.remoteSet ++ suffix := hsuf
              simp [he, List.append_assoc]
            · intro e he
              rcases List.mem_append.1 he with hmem | hmem
              · exact helems e hmem
              · by_cases hig : on_track_dispatch mime = TrackAction.ignore
                · rw [if_pos hig] at hmem
                  simp at hmem
                  exact Or.inl hmem
                · rw [if_neg hig] at hmem
                  simpa using hmem

/-- The canonical negotiator run is made of negotiator events and spawns no
relay before the remote description. -/
theorem negotiatorCanon_filter (ph : NegPhase) :
    (negotiatorCanon ph).filter isNegotiatorEvent = negotiatorCanon ph ∧
    spawnBeforeRemote (negotiatorCanon ph) = false := by
  cases ph <;> exact ⟨rfl, rfl⟩

/-- Claim C6: every reachable session state shows the handshake steps strictly
sequential — the negotiator events in the trace are exactly the canonical run
create-offer, set-local-description, gathering-complete, whep exchange,
set-remote-description cut at the current phase, so no step has begun before
the previous one completed — and no relay task is ever spawned before the
remote description has been set. -/
theorem handshake_sequential_no_early_relay (s : MainState)
    (h : ReachableMain s) :
    s.trace.filter isNegotiatorEvent = negotiatorCanon s.phase ∧
    spawnBeforeRemote s.trace = false := by
  obtain ⟨ph, tr⟩ := s
  rcases mainInv_of_reachable ⟨ph, tr⟩ h with ⟨_, htr⟩ | ⟨hph, suffix, hsuf, helems⟩
  · have he : tr = negotiatorCanon ph := htr
    subst he
    exact negotiatorCanon_filter ph
  · have hph2 : ph = NegPhase.remoteSet := hph
    subst hph2
    have he : tr = negotiatorCanon NegPhase.remoteSet ++ suffix := hsuf
    subst he
    constructor
    · show (negotiatorCanon NegPhase.remoteSet ++ suffix).filter isNegotiatorEvent
          = negotiatorCanon NegPhase.remoteSet
      rw [List.filter_append]
      have hnil : suffix.filter isNegotiatorEvent = [] := by
        rw [List.filter_eq_nil_iff]
        intro e hmem
        rcases helems e hmem with he1 | he1 <;> simp [he1, isNegotiatorEvent]
      rw [hnil]
      simp [negotiatorCanon, isNegotiatorEvent]
    · rfl

/-- Witness run for handshake_sequential_no_early_relay: the full handshake
followed by one recognized H264 track, which spawns one relay task. -/
def fullRunState : MainState :=
  ⟨NegPhase.remoteSet,
   [NegEvent.createOffer, NegEvent.setLocalDescription, NegEvent.gatheringComplete,
    NegEvent.whepExchange, NegEvent.setRemoteDescription, NegEvent.trackArrived,
    NegEvent.spawnRelay]⟩

/-- Witness for handshake_sequential_no_early_relay at the full run. -/
theorem handshake_sequential_no_early_relay_witness :
    ReachableMain fullRunState ∧
    (fullRunState.trace.filter isNegotiatorEvent = negotiatorCanon fullRunState.phase ∧
     spawnBeforeRemote fullRunState.trace = false) := by
  have h0 : ReachableMain ⟨NegPhase.init, []⟩ := ReachableMain.init
  have h1 := ReachableMain.step _ _ h0 (MainStep.offer [])
  have h2 := ReachableMain.step _ _ h1 (MainStep.setLocal _)
  have h3 := ReachableMain.step _ _ h2 (MainStep.gather _)
  have h4 := ReachableMain.step _ _ h3 (MainStep.signal _)
  have h5 := ReachableMain.step _ _ h4 (MainStep.setRemote _)
  have h6 := ReachableMain.step _ _ h5 (MainStep.track _ "video/H264")
  have hif : (if on_track_dispatch "video/H264" = TrackAction.ignore
              then [NegEvent.trackArrived]
              else [NegEvent.trackArrived, NegEvent.spawnRelay])
      = [NegEvent.trackArrived, NegEvent.spawnRelay] := by decide
  rw [hif] at h6
  have hreach : ReachableMain fullRunState := h6
  exact ⟨hreach, handshake_sequential_no_early_relay fullRunState hreach⟩
